import Mathlib

/-!
Verification development for the deep-image compositing pipeline
(`deep_compositor`).  The C++ source is shallowly embedded: machine
floats are modelled as rationals (`ℚ`), flat float buffers as
`List ℚ`, and the three-stage scanline pipeline as a labelled
transition system over an explicit state.  Every definition mirrors a
function of the source tree; each claim's theorem is stated over these
definitions.
-/

namespace DeepComp

/-- One deep sample as `flattenRow` in `temp.cpp` reads it: five
interleaved floats `R, G, B, A, Z` (the flattener advances its pointer
by 5 per sample and never reads a sixth channel). -/
structure Sample5 where
  r : ℚ
  g : ℚ
  b : ℚ
  a : ℚ
  z : ℚ
  deriving DecidableEq, Repr

/-- The running accumulator `(accR, accG, accB, accA)` of `flattenRow`. -/
structure Accum where
  R : ℚ
  G : ℚ
  B : ℚ
  A : ℚ
  deriving DecidableEq, Repr

/-- Initial accumulator: `float accR = 0, accG = 0, accB = 0, accA = 0;`. -/
def accum0 : Accum := ⟨0, 0, 0, 0⟩

/-- The early-out threshold of `flattenRow`: `0.999f`. -/
def k4Threshold : ℚ := 999 / 1000

/-- One iteration of the inner loop of `flattenRow` (`temp.cpp`):
`weight = a * (1.0f - accA); accR += r * weight; accG += g * weight;
accB += b * weight; accA += weight;`.  Note that the colour channels
are multiplied by the full `weight = a · (1 − accA)`, not by
`(1 − accA)` alone. -/
def k4Step (acc : Accum) (s : Sample5) : Accum :=
  let weight := s.a * (1 - acc.A)
  ⟨acc.R + s.r * weight, acc.G + s.g * weight, acc.B + s.b * weight, acc.A + weight⟩

/-- The inner sample loop of `flattenRow` with its early-out: after each
sample's update, if `accA >= 0.999f` the remaining samples of the pixel
are skipped (the pointer is advanced past them without touching the
accumulator). -/
def k4Run (acc : Accum) : List Sample5 → Accum
  | [] => acc
  | s :: rest =>
      let acc' := k4Step acc s
      if k4Threshold ≤ acc'.A then acc' else k4Run acc' rest

/-- The same accumulation without the early-out, used to state prefix
properties of `k4Run`. -/
def k4Fold (acc : Accum) (l : List Sample5) : Accum :=
  l.foldl k4Step acc

/-- Group a flat float buffer into 5-float samples, exactly as
`flattenRow` walks `allSamples` in steps of 5. -/
def chunk5 : List ℚ → List Sample5
  | r :: g :: b :: a :: z :: rest => ⟨r, g, b, a, z⟩ :: chunk5 rest
  | _ => []

/-- Pixel `x`'s samples under `flattenRow`'s sequential walk: skip the
samples of pixels `0 .. x−1`, then take `sampleCounts[x]` samples. -/
def pixelSamples (counts : List ℕ) (data : List ℚ) (x : ℕ) : List Sample5 :=
  ((chunk5 data).drop ((counts.take x).sum)).take (counts.getD x 0)

/-- The per-pixel result of `flattenRow`: run the accumulation loop on
pixel `x`'s samples starting from the zero accumulator. -/
def flattenPixel (counts : List ℕ) (data : List ℚ) (x : ℕ) : Accum :=
  k4Run accum0 (pixelSamples counts data x)

/-- The three stores of `flattenRow` for pixel `x`:
`rgbOutput[x * 3 + 0] = accR; rgbOutput[x * 3 + 1] = accG;
rgbOutput[x * 3 + 2] = accB;` — three floats at stride 3, and no store
of the accumulated alpha. -/
def flattenStore (out : List ℚ) (x : ℕ) (acc : Accum) : List ℚ :=
  ((out.set (x * 3 + 0) acc.R).set (x * 3 + 1) acc.G).set (x * 3 + 2) acc.B

/-- Model of `flattenRow(deepRow, rgbOutput)` from `temp.cpp`: for each pixel
`x < width`, accumulate the pixel's samples and store three floats into
`rgbOutput`. -/
def flattenRow (width : ℕ) (counts : List ℕ) (data : List ℚ) (out : List ℚ) : List ℚ :=
  (List.range width).foldl (fun o x => flattenStore o x (flattenPixel counts data x)) out

/-- The flattening step of `writer_worker` in `deep_compositor.cpp`:
`std::vector<float> rowRGB(width * 4);` (zero-initialised), then
`flattenRow(deepRow, rowRGB)`; the whole `rowRGB` vector is then copied
into `finalImage` at float offset `write_y * width * 4`. -/
def writerRowOutput (width : ℕ) (counts : List ℕ) (data : List ℚ) : List ℚ :=
  flattenRow width counts data (List.replicate (width * 4) 0)

/-! ## Scanline buffer (`DeepRow` in `temp.cpp`) -/

/-- The fields of `struct DeepRow` that the layout claims depend on:
the per-pixel sample-count array and the capacity (in floats) of the
single contiguous block `allSamples`. -/
structure DeepRow where
  width : ℕ
  sampleCounts : List ℕ
  currentCapacity : ℕ
  deriving DecidableEq, Repr

/-- Model of `DeepRow::allocate(size_t width, const unsigned int* counts)`:
copies `width` counts, sums them into `totalSamplesInRow`, then
`allSamples = new float[totalSamplesInRow * 5]` — five floats per
sample. -/
def DeepRow.allocateCounts (width : ℕ) (counts : List ℕ) : DeepRow :=
  let copied := counts.take width
  { width := width
    sampleCounts := copied
    currentCapacity := copied.sum * 5 }

/-- The float offset computed by `DeepRow::getPixelData(int x)`: the
running sum of `sampleCounts[0..x)` multiplied by 5 (`// Multiply by 5
because of RGBAZ interleaving`). -/
def DeepRow.pixelDataOffset (row : DeepRow) (x : ℕ) : ℕ :=
  (row.sampleCounts.take x).sum * 5

/-! ## Merger (`mergePixelsDirect`) -/

/-- The merger's staging record `struct RawSample` with fields
`r, g, b, a, z, z_back` — the staging
record of the merger. -/
structure RawSample where
  r : ℚ
  g : ℚ
  b : ℚ
  a : ℚ
  z : ℚ
  z_back : ℚ
  deriving DecidableEq, Repr

/-- The comparison `RawSample::operator<`: compare by `z`, ties broken by `z_back`.
Expressed as the boolean "not greater" relation a comparison sort
establishes between adjacent outputs. -/
def rawSampleLE (s t : RawSample) : Bool :=
  decide (s.z < t.z) || (decide (s.z = t.z) && decide (s.z_back ≤ t.z_back))

/-- The gathered staging buffer of `mergePixelsDirect`: the pixel's
sample lists from all input files, concatenated in file order. -/
def gatherStaging (pixelLists : List (List RawSample)) : List RawSample :=
  pixelLists.flatten

/-- The sample-level result of `mergePixelsDirect` for one pixel: the
staging buffer sorted by `RawSample::operator<` (`std::sort`).  No
volumetric splitting and no near-depth merging is applied — the
comment `[Your Volumetric Splitting/Sorting Logic Here]` marks where
they would go. -/
def mergePixelSamples (pixelLists : List (List RawSample)) : List RawSample :=
  (gatherStaging pixelLists).mergeSort rawSampleLE

/-- Two samples occupy identical depth bins: same `(z_front, z_back)`. -/
def colocated (s t : RawSample) : Prop :=
  s.z = t.z ∧ s.z_back = t.z_back

/-- Two samples are strictly disjoint in depth: one interval ends
before (or where) the other begins. -/
def depthDisjoint (s t : RawSample) : Prop :=
  s.z_back ≤ t.z ∨ t.z_back ≤ s.z

/-- A sample is a volume sample when it has positive thickness. -/
def isVolume (s : RawSample) : Prop := s.z < s.z_back

instance (s : RawSample) : Decidable (isVolume s) := by
  unfold isVolume; infer_instance

/-- The merged output row as `mergePixelsDirect` mutates it: the
per-pixel sample-count array and the flat float block. -/
structure MergedRow where
  sampleCounts : List ℕ
  data : List ℚ
  deriving DecidableEq, Repr

/-- Overwrite `vals` into `data` starting at float offset `off`
(modelling the pointer stores `dest[0] = …; … dest[5] = …;`). -/
def listOverwrite (data : List ℚ) (off : ℕ) (vals : List ℚ) : List ℚ :=
  vals.enum.foldl (fun d p => d.set (off + p.1) p.2) data

/-- Serialise a staged sample back to its six floats, as the write-back
loop of `mergePixelsDirect` (`src/unnamed/part_001`) does. -/
def rawSampleFloats (s : RawSample) : List ℚ :=
  [s.r, s.g, s.b, s.a, s.z, s.z_back]

/-- Model of `mergePixelsDirect(x, y, pixelDataPtrs, pixelSampleCounts,
outputRow)`: gather all input samples for pixel `x` into the staging
buffer; if it is empty, set `outputRow.sampleCounts[x] = 0` and return
at once; otherwise sort the staging buffer and write it back at the
output row's offset for pixel `x` (computed by
`outputRow.getPixelData(x)` from the counts written so far), then set
the pixel's count. -/
def mergePixelsDirect (x : ℕ) (pixelLists : List (List RawSample))
    (outputRow : MergedRow) : MergedRow :=
  let staging := gatherStaging pixelLists
  if staging.isEmpty then
    { outputRow with sampleCounts := outputRow.sampleCounts.set x 0 }
  else
    let sorted := staging.mergeSort rawSampleLE
    let off := (outputRow.sampleCounts.take x).sum * 5
    { sampleCounts := outputRow.sampleCounts.set x sorted.length
      data := listOverwrite outputRow.data off (sorted.map rawSampleFloats).flatten }

/-! ## Merger-stage capacity (`merger_worker` in `deep_compositor.cpp`) -/

/-- Value of `DeepRow::totalSamplesInRow` of one input row: the sum of its
per-pixel sample counts. -/
def rowTotalSamples (src : List (List RawSample)) : ℕ :=
  (src.map List.length).sum

/-- The merged-row sample capacity computed by `merger_worker`:
`maxSamplesForPixel += m_inputBuffer[i][slot].totalSamplesInRow;` over
all files, then `totalPossibleSamplesInRow += (maxSamplesForPixel * 1)`
— the multiplier is 1, not 2. -/
def mergerRowCapacity (sources : List (List (List RawSample))) : ℕ :=
  (sources.map rowTotalSamples).sum * 1

/-- The `N` per-pixel sample lists gathered for pixel `x` by the
`for (int i = 0; i < numFiles; ++i)` loop of `merger_worker`. -/
def gatherPixel (sources : List (List (List RawSample))) (x : ℕ) :
    List (List RawSample) :=
  sources.map (fun src => src.getD x [])

/-- Total number of merged samples written into the merged row across
all pixels of a width-`W` scanline. -/
def mergedRowWrittenTotal (W : ℕ) (sources : List (List (List RawSample))) : ℕ :=
  ((List.range W).map (fun x => (mergePixelSamples (gatherPixel sources x)).length)).sum

/-- Whether a pixel's gathered samples contain a pair of overlapping
volume samples (the situation in which a volumetric split may occur). -/
def hasVolumeOverlap : List RawSample → Bool
  | [] => false
  | s :: rest =>
      rest.any (fun t =>
        decide (isVolume s) && decide (isVolume t) &&
        decide (s.z < t.z_back) && decide (t.z < s.z_back)) ||
      hasVolumeOverlap rest

/-- Modelled from the spec: the allocation bound the claim states —
`Σ_x Σ_i counts_i[x] · S` with `S = 2` whenever any volumetric split
may occur (some pixel holds overlapping volume samples) and `S = 1`
otherwise. -/
def claimRowCapacity (W : ℕ) (sources : List (List (List RawSample))) : ℕ :=
  let total := (sources.map rowTotalSamples).sum
  let s := if (List.range W).any (fun x => hasVolumeOverlap (gatherStaging (gatherPixel sources x)))
           then 2 else 1
  total * s

/-! ## Pipeline driver (`processAllEXR` and `main`) -/

/-- What the driver sees of one input file: whether it opens as a deep
EXR (`isDeepEXR` / the `DeepInfo` constructor succeeding), its data
window dimensions, and its per-row, per-pixel sample lists. -/
structure DeepFileModel where
  isDeep : Bool
  width : ℕ
  height : ℕ
  rows : List (List (List RawSample))
  deriving DecidableEq, Repr

/-- The per-file dimension check of the preload loop in
`processAllEXR`: `img->width() != imagesInfo[0]->width() ||
img->height() != imagesInfo[0]->height()` fails the pipeline. -/
def dimsMatch (first f : DeepFileModel) : Bool :=
  (f.width == first.width) && (f.height == first.height)

/-- The preload loop of `processAllEXR`: each file in order must be a
deep EXR and (once the first file is loaded) match its dimensions;
any failure returns the empty result immediately. -/
def preloadOk (first : DeepFileModel) : List DeepFileModel → Bool
  | [] => true
  | f :: rest => f.isDeep && dimsMatch first f && preloadOk first rest

/-- One merged scanline: run `merger_worker`'s per-pixel loop
`for (int x = 0; x < width; ++x) mergePixelsDirect(...)` over a merged
slot freshly allocated by `allocate(width, totalPossibleSamplesInRow)`
(zeroed counts, block of `totalPossibleSamplesInRow * 5` floats). -/
def mergeRow (W : ℕ) (sources : List (List (List RawSample))) : MergedRow :=
  (List.range W).foldl
    (fun row x => mergePixelsDirect x (gatherPixel sources x) row)
    { sampleCounts := List.replicate W 0
      data := List.replicate (mergerRowCapacity sources * 5) 0 }

/-- The sequential collapse of the three-stage pipeline: for each row,
merge the per-file scanlines and flatten the merged slot with
`writer_worker`'s row output; rows are laid out consecutively in
`finalImage` (`width * 4` floats per row). -/
def pipelineRaster (inputs : List DeepFileModel) : List ℚ :=
  match inputs with
  | [] => []
  | f0 :: _ =>
      ((List.range f0.height).map (fun y =>
        let sources := inputs.map (fun f => f.rows.getD y [])
        let m := mergeRow f0.width sources
        writerRowOutput f0.width m.sampleCounts m.data)).flatten

/-- Model of `processAllEXR(opts)`: validate all inputs in the preload loop
(returning the empty result `{}` on the first failure — modelled as
`none`), then run the three-stage pipeline and return the flattened
raster. -/
def processAllEXR (inputs : List DeepFileModel) : Option (List ℚ) :=
  match inputs with
  | [] => none
  | f0 :: rest =>
      if preloadOk f0 (f0 :: rest) then some (pipelineRaster (f0 :: rest)) else none

/-- The exit code of `main` after a successful argument parse with
`--help` absent: every input must pass `isDeepEXR` (else `return 1`);
then `processAllEXR` runs but its result is never inspected; the only
remaining failure path is a `DeepWriterException` from the PNG write
(`opts.pngOutput`, `hasPNGSupport()` and the write failing), which
returns 1; otherwise `main` returns 0. -/
def mainExitCode (pngOutput hasPNGSupport pngWriteFails : Bool)
    (inputs : List DeepFileModel) : ℕ :=
  if inputs.any (fun f => !f.isDeep) then 1
  else
    let _finalImage := processAllEXR inputs
    if pngOutput && hasPNGSupport && pngWriteFails then 1 else 0

/-! ## Row-status protocol of the three workers (`deep_compositor.cpp`) -/

/-- The constant `windowSize` in `processAllEXR`. -/
def WINDOW : ℕ := 32

/-- Status value `RowStatus::EMPTY`. -/
def EMPTY : ℕ := 0

/-- Status value `RowStatus::LOADED`. -/
def LOADED : ℕ := 1

/-- Status value `RowStatus::MERGED`. -/
def MERGED : ℕ := 2

/-- Status value `RowStatus::FLATTENED`. -/
def FLATTENED : ℕ := 3

/-- Shared state of the three workers: the `rowStatus` array (as a
function from row index to status) and each worker's private row
counter (`load_y`, `merge_y`, `write_y`). -/
structure PipeState where
  status : ℕ → ℕ
  loadY : ℕ
  mergeY : ℕ
  writeY : ℕ

/-- Pipeline start: every `rowStatus` entry stores `EMPTY`, all three
workers are at row 0. -/
def initState : PipeState := ⟨fun _ => EMPTY, 0, 0, 0⟩

/-- One observable action of a worker thread, with the guard that lets
its wait loop exit.

* `load`: the loader, at row `load_y < height`, may fill the input
  slots and publish `rowStatus[load_y].store(LOADED)` only after its
  throttle loop `while (rowStatus[load_y - windowSize].load() <
  FLATTENED) yield;` has exited (required only when
  `load_y >= windowSize`).
* `merge`: the merger publishes `MERGED` for `merge_y` after its wait
  `while (rowStatus[merge_y].load() < LOADED) yield;`.
* `write`: the flattener publishes `FLATTENED` for `write_y` after its
  wait `while (rowStatus[write_y].load() < MERGED) yield;`. -/
inductive PipeStep (H : ℕ) : PipeState → PipeState → Prop
  | load (s : PipeState) (hy : s.loadY < H)
      (throttle : WINDOW ≤ s.loadY → FLATTENED ≤ s.status (s.loadY - WINDOW)) :
      PipeStep H s ⟨Function.update s.status s.loadY LOADED, s.loadY + 1, s.mergeY, s.writeY⟩
  | merge (s : PipeState) (hy : s.mergeY < H)
      (hld : LOADED ≤ s.status s.mergeY) :
      PipeStep H s ⟨Function.update s.status s.mergeY MERGED, s.loadY, s.mergeY + 1, s.writeY⟩
  | write (s : PipeState) (hy : s.writeY < H)
      (hmg : MERGED ≤ s.status s.writeY) :
      PipeStep H s ⟨Function.update s.status s.writeY FLATTENED, s.loadY, s.mergeY, s.writeY + 1⟩

/-- States reachable from pipeline start by interleaving the three
workers. -/
def Reachable (H : ℕ) (s : PipeState) : Prop :=
  Relation.ReflTransGen (PipeStep H) initState s

/-- The status a row holds as a function of how far each worker has
advanced; the reachability invariant below shows `rowStatus` always
equals this. -/
def statusSpec (s : PipeState) (r : ℕ) : ℕ :=
  if r < s.writeY then FLATTENED
  else if r < s.mergeY then MERGED
  else if r < s.loadY then LOADED
  else EMPTY

/-- Structural invariant of the pipeline state: the flattener never
passes the merger, the merger never passes the loader, and every row's
status is determined by the worker positions. -/
def PipeInv (s : PipeState) : Prop :=
  s.writeY ≤ s.mergeY ∧ s.mergeY ≤ s.loadY ∧ ∀ r, s.status r = statusSpec s r

/-! ## Theorems: row-status protocol -/

theorem statusSpec_le_flattened (s : PipeState) (r : ℕ) : statusSpec s r ≤ FLATTENED := by
  unfold statusSpec EMPTY LOADED MERGED FLATTENED
  split_ifs <;> omega

theorem pipeInv_init : PipeInv initState := by
  refine ⟨le_refl _, le_refl _, ?_⟩
  intro r
  simp [initState, statusSpec, EMPTY]

theorem pipeInv_step {H : ℕ} {s s' : PipeState} (h : PipeInv s) (hs : PipeStep H s s') :
    PipeInv s' := by
  obtain ⟨hwm, hml, hst⟩ := h
  cases hs with
  | load hy throttle =>
      refine ⟨hwm, by dsimp only; omega, ?_⟩
      intro r
      dsimp only [statusSpec]
      by_cases hr : r = s.loadY
      · subst hr
        simp only [Function.update_same]
        unfold EMPTY LOADED MERGED FLATTENED
        split_ifs <;> omega
      · simp only [Function.update_noteq hr, hst r, statusSpec]
        unfold EMPTY LOADED MERGED FLATTENED
        split_ifs <;> omega
  | merge hy hld =>
      have hm : s.mergeY < s.loadY := by
        rw [hst s.mergeY] at hld
        unfold statusSpec EMPTY LOADED MERGED FLATTENED at hld
        split_ifs at hld <;> omega
      refine ⟨by dsimp only; omega, by dsimp only; omega, ?_⟩
      intro r
      dsimp only [statusSpec]
      by_cases hr : r = s.mergeY
      · subst hr
        simp only [Function.update_same]
        unfold EMPTY LOADED MERGED FLATTENED
        split_ifs <;> omega
      · simp only [Function.update_noteq hr, hst r, statusSpec]
        unfold EMPTY LOADED MERGED FLATTENED
        split_ifs <;> omega
  | write hy hmg =>
      have hw : s.writeY < s.mergeY := by
        rw [hst s.writeY] at hmg
        unfold statusSpec EMPTY LOADED MERGED FLATTENED at hmg
        split_ifs at hmg <;> omega
      refine ⟨by dsimp only; omega, by dsimp only; omega, ?_⟩
      intro r
      dsimp only [statusSpec]
      by_cases hr : r = s.writeY
      · subst hr
        simp only [Function.update_same]
        unfold EMPTY LOADED MERGED FLATTENED
        split_ifs <;> omega
      · simp only [Function.update_noteq hr, hst r, statusSpec]
        unfold EMPTY LOADED MERGED FLATTENED
        split_ifs <;> omega

theorem reachable_inv {H : ℕ} {s : PipeState} (h : Reachable H s) : PipeInv s := by
  induction h with
  | refl => exact pipeInv_init
  | tail _ hstep ih => exact pipeInv_step ih hstep

/-- C8: along every reachable transition of the three-worker pipeline,
(i) no row's status ever decreases, (ii) every status change is a
single forward step of the lattice `Empty → Loaded → Merged →
Flattened` (publish strictly one above the prior value, never past
`Flattened`), and (iii) whenever the loader writes row `y`'s input
slot (the transition that advances `load_y`) with `y ≥ WINDOW`, row
`y − WINDOW` had already been published `Flattened`. -/
theorem rowStatus_monotone_and_throttled (H : ℕ) (s s' : PipeState)
    (hr : Reachable H s) (hstep : PipeStep H s s') :
    (∀ r, s.status r ≤ s'.status r) ∧
    (∀ r, s.status r ≠ s'.status r →
      s'.status r = s.status r + 1 ∧ s'.status r ≤ FLATTENED) ∧
    (s'.loadY = s.loadY + 1 → WINDOW ≤ s.loadY →
      s.status (s.loadY - WINDOW) = FLATTENED) := by
  obtain ⟨hwm, hml, hst⟩ := reachable_inv hr
  cases hstep with
  | load hy throttle =>
      have hcur : s.status s.loadY = EMPTY := by
        rw [hst s.loadY]
        unfold statusSpec EMPTY LOADED MERGED FLATTENED
        split_ifs <;> omega
      refine ⟨?_, ?_, ?_⟩
      · intro r
        dsimp only
        by_cases hrr : r = s.loadY
        · subst hrr
          simp only [Function.update_same, hcur]
          unfold EMPTY LOADED
          omega
        · simp [Function.update_noteq hrr]
      · intro r hne
        dsimp only at hne ⊢
        by_cases hrr : r = s.loadY
        · subst hrr
          simp only [Function.update_same, hcur] at hne ⊢
          unfold EMPTY LOADED FLATTENED
          omega
        · simp [Function.update_noteq hrr] at hne
      · intro _ hW
        have h3 := throttle hW
        have hle := hst (s.loadY - WINDOW)
        rw [hle] at h3 ⊢
        have := statusSpec_le_flattened s (s.loadY - WINDOW)
        omega
  | merge hy hld =>
      have hcur : s.status s.mergeY = LOADED := by
        rw [hst s.mergeY]
        rw [hst s.mergeY] at hld
        unfold statusSpec EMPTY LOADED MERGED FLATTENED at hld ⊢
        split_ifs at hld ⊢ <;> omega
      refine ⟨?_, ?_, ?_⟩
      · intro r
        dsimp only
        by_cases hrr : r = s.mergeY
        · subst hrr
          simp only [Function.update_same, hcur]
          unfold LOADED MERGED
          omega
        · simp [Function.update_noteq hrr]
      · intro r hne
        dsimp only at hne ⊢
        by_cases hrr : r = s.mergeY
        · subst hrr
          simp only [Function.update_same, hcur] at hne ⊢
          unfold LOADED MERGED FLATTENED
          omega
        · simp [Function.update_noteq hrr] at hne
      · intro habs
        dsimp only at habs
        omega
  | write hy hmg =>
      have hcur : s.status s.writeY = MERGED := by
        rw [hst s.writeY]
        rw [hst s.writeY] at hmg
        unfold statusSpec EMPTY LOADED MERGED FLATTENED at hmg ⊢
        split_ifs at hmg ⊢ <;> omega
      refine ⟨?_, ?_, ?_⟩
      · intro r
        dsimp only
        by_cases hrr : r = s.writeY
        · subst hrr
          simp only [Function.update_same, hcur]
          unfold MERGED FLATTENED
          omega
        · simp [Function.update_noteq hrr]
      · intro r hne
        dsimp only at hne ⊢
        by_cases hrr : r = s.writeY
        · subst hrr
          simp only [Function.update_same, hcur] at hne ⊢
          unfold MERGED FLATTENED
          omega
        · simp [Function.update_noteq hrr] at hne
      · intro habs
        dsimp only at habs
        omega

/-- Witness for C8: the initial state of a one-row pipeline is
reachable, the loader may take its first step there (the throttle is
vacuous below `WINDOW`), and the protocol properties hold for that
transition. -/
theorem rowStatus_monotone_and_throttled_witness :
    (∀ r, initState.status r ≤
      (PipeState.mk (Function.update initState.status initState.loadY LOADED)
        (initState.loadY + 1) initState.mergeY initState.writeY).status r) ∧
    (∀ r, initState.status r ≠
        (PipeState.mk (Function.update initState.status initState.loadY LOADED)
          (initState.loadY + 1) initState.mergeY initState.writeY).status r →
      (PipeState.mk (Function.update initState.status initState.loadY LOADED)
        (initState.loadY + 1) initState.mergeY initState.writeY).status r =
        initState.status r + 1 ∧
      (PipeState.mk (Function.update initState.status initState.loadY LOADED)
        (initState.loadY + 1) initState.mergeY initState.writeY).status r ≤ FLATTENED) ∧
    ((PipeState.mk (Function.update initState.status initState.loadY LOADED)
        (initState.loadY + 1) initState.mergeY initState.writeY).loadY =
        initState.loadY + 1 →
      WINDOW ≤ initState.loadY →
      initState.status (initState.loadY - WINDOW) = FLATTENED) :=
  rowStatus_monotone_and_throttled 1 initState _ Relation.ReflTransGen.refl
    (PipeStep.load initState (by norm_num [initState])
      (fun h => absurd h (by norm_num [initState, WINDOW])))

/-! ## Theorems: the K4 accumulation loop -/

theorem k4Run_prefix_aux (l : List Sample5) : ∀ acc : Accum, acc.A < k4Threshold →
    ∃ n, n ≤ l.length ∧ k4Run acc l = k4Fold acc (l.take n) ∧
      (∀ m < n, (k4Fold acc (l.take m)).A < k4Threshold) ∧
      (n < l.length → k4Threshold ≤ (k4Fold acc (l.take n)).A) := by
  induction l with
  | nil =>
      intro acc _
      exact ⟨0, by simp, by simp [k4Run, k4Fold], by omega, by simp⟩
  | cons s rest ih =>
      intro acc hacc
      by_cases hth : k4Threshold ≤ (k4Step acc s).A
      · refine ⟨1, by simp, ?_, ?_, ?_⟩
        · simp [k4Run, hth, k4Fold]
        · intro m hm
          have hm0 : m = 0 := by omega
          subst hm0
          simpa [k4Fold] using hacc
        · intro _
          simpa [k4Fold] using hth
      · obtain ⟨n, hn, heq, hmin, hend⟩ := ih (k4Step acc s) (lt_of_not_le hth)
        refine ⟨n + 1, by simpa using hn, ?_, ?_, ?_⟩
        · simpa [k4Run, hth, k4Fold] using heq
        · intro m hm
          cases m with
          | zero => simpa [k4Fold] using hacc
          | succ m' =>
              have := hmin m' (by omega)
              simpa [k4Fold] using this
        · intro hlt
          have := hend (by simpa using hlt)
          simpa [k4Fold] using this

/-- C9: the flattener's early-out is applied only after a sample's
update: the result of the sample loop equals the plain front-to-back
accumulation over the minimal prefix whose accumulated alpha first
reaches the `0.999` threshold — or over the whole sample list when the
threshold is never reached — so samples after the early-out change none
of `R`, `G`, `B`, `A`. -/
theorem k4_early_out_stops_at_threshold (l : List Sample5) :
    ∃ n, n ≤ l.length ∧
      k4Run accum0 l = k4Fold accum0 (l.take n) ∧
      (∀ m < n, (k4Fold accum0 (l.take m)).A < k4Threshold) ∧
      (n < l.length → k4Threshold ≤ (k4Fold accum0 (l.take n)).A) :=
  k4Run_prefix_aux l accum0 (by norm_num [accum0, k4Threshold])

/-- Modelled from the spec: the K4 update rule as §4.1 states it —
`w = a_i · (1 − A); R += r_i · (1 − A); G += g_i · (1 − A);
B += b_i · (1 − A); A += w` (colour weighted by `(1 − A)` alone). -/
def k4StepSpec (acc : Accum) (s : Sample5) : Accum :=
  let w := s.a * (1 - acc.A)
  ⟨acc.R + s.r * (1 - acc.A), acc.G + s.g * (1 - acc.A),
   acc.B + s.b * (1 - acc.A), acc.A + w⟩

/-- C2 (failing input): on the premultiplied half-covered red sample
`(r, g, b, a) = (0.5, 0, 0, 0.5)` starting from a clear accumulator,
the code's update (`flattenRow`) produces `R = 0.25` — the colour is
weighted by `a · (1 − A)` — whereas the spec's K4 rule produces
`R = 0.5`. -/
theorem k4Step_weights_color_by_alpha :
    (k4Step accum0 ⟨1/2, 0, 0, 1/2, 0⟩).R = 1/4 ∧
    (k4StepSpec accum0 ⟨1/2, 0, 0, 1/2, 0⟩).R = 1/2 ∧
    k4Step accum0 ⟨1/2, 0, 0, 1/2, 0⟩ ≠ k4StepSpec accum0 ⟨1/2, 0, 0, 1/2, 0⟩ := by
  refine ⟨by norm_num [k4Step, accum0], by norm_num [k4StepSpec, accum0], ?_⟩
  intro h
  have := congrArg Accum.R h
  norm_num [k4Step, k4StepSpec, accum0] at this

/-- C1 (failing input): a one-pixel row with a single opaque white
sample.  The pixel's accumulated alpha is `1`, but `flattenRow` stores
only three floats per pixel (`rgbOutput[x*3+0..2]`) and never stores
the alpha, so the writer's four-float pixel slot ends `(1, 1, 1, 0)` —
the fourth channel keeps the zero the `rowRGB` buffer was initialised
with instead of the accumulated alpha.  On a two-pixel row (opaque red
at pixel 0, opaque green at pixel 1) pixel 1's three stores land at
float offsets `3..5` of the row instead of the claimed `4·(y·W+x) = 4..7`,
and every alpha slot stays `0`. -/
theorem flattener_output_lacks_alpha :
    writerRowOutput 1 [1] [1, 1, 1, 1, 0] = [1, 1, 1, 0] ∧
    (flattenPixel [1] [1, 1, 1, 1, 0] 0).A = 1 ∧
    writerRowOutput 2 [1, 1] [1, 0, 0, 1, 0, 0, 1, 0, 1, 0] =
      [1, 0, 0, 0, 1, 0, 0, 0] := by
  refine ⟨?_, ?_, ?_⟩
  · norm_num [writerRowOutput, flattenRow, flattenStore, flattenPixel, pixelSamples,
      chunk5, k4Run, k4Step, accum0, k4Threshold, List.range_succ]
    rfl
  · norm_num [flattenPixel, pixelSamples, chunk5, k4Run, k4Step, accum0, k4Threshold]
  · norm_num [writerRowOutput, flattenRow, flattenStore, flattenPixel, pixelSamples,
      chunk5, k4Run, k4Step, accum0, k4Threshold, List.range_succ]
    rfl

/-! ## Theorems: the merger -/

/-- C3 (failing input): one pixel gathering one volume sample
`[z, z_back] = [0, 10]` from file 0 and one volume sample `[5, 15]`
from file 1.  `mergePixelsDirect` only sorts the concatenation — the
two overlapping volume samples survive unchanged, so the merged pixel
holds a pair that neither shares `(z_front, z_back)` nor is disjoint
in depth: no volumetric split (K3) and no near-depth merge (K2) is
applied. -/
theorem merger_keeps_overlapping_volumes :
    mergePixelSamples [[⟨1, 0, 0, 1, 0, 10⟩], [⟨0, 1, 0, 1, 5, 15⟩]] =
      [⟨1, 0, 0, 1, 0, 10⟩, ⟨0, 1, 0, 1, 5, 15⟩] ∧
    isVolume (⟨1, 0, 0, 1, 0, 10⟩ : RawSample) ∧
    isVolume (⟨0, 1, 0, 1, 5, 15⟩ : RawSample) ∧
    ¬ colocated (⟨1, 0, 0, 1, 0, 10⟩ : RawSample) ⟨0, 1, 0, 1, 5, 15⟩ ∧
    ¬ depthDisjoint (⟨1, 0, 0, 1, 0, 10⟩ : RawSample) ⟨0, 1, 0, 1, 5, 15⟩ := by
  refine ⟨?_, by norm_num [isVolume], by norm_num [isVolume], ?_, ?_⟩
  · unfold mergePixelSamples gatherStaging
    rw [show ([[⟨1, 0, 0, 1, 0, 10⟩], [⟨0, 1, 0, 1, 5, 15⟩]] :
        List (List RawSample)).flatten =
        [⟨1, 0, 0, 1, 0, 10⟩, ⟨0, 1, 0, 1, 5, 15⟩] from rfl]
    rw [List.mergeSort]
    norm_num [List.mergeSort, List.merge, rawSampleLE]
  · intro h
    obtain ⟨h1, _⟩ := h
    norm_num at h1
  · intro h
    rcases h with h | h <;> norm_num at h

/-- C4 (failing input): `DeepRow::allocate(width, counts)` with
`width = 1`, `counts = [1]` allocates a block of `1 · 5 = 5` floats
(five channels `R,G,B,A,Z`), not the `6 · Σ counts = 6` floats the
claim states; likewise `getPixelData` places pixel 1 of a `[2, 3]`
row at float offset `2 · 5 = 10`, not `2 · 6 = 12`. -/
theorem deepRow_layout_five_floats :
    (DeepRow.allocateCounts 1 [1]).currentCapacity = 5 ∧
    (DeepRow.allocateCounts 2 [2, 3]).pixelDataOffset 1 = 10 := by
  constructor <;> rfl

/-- C5 (counterexample): on a one-pixel row whose two sources hold the
overlapping volume samples `[0, 10]` and `[5, 15]`, the capacity the
claim states (`Σ counts · S` with `S = 2` since a volumetric split may
occur) is `4`, but `merger_worker` allocates
`totalPossibleSamplesInRow = (Σ counts) * 1 = 2`. -/
theorem merger_capacity_claim_mismatch :
    claimRowCapacity 1 [[[⟨1, 0, 0, 1, 0, 10⟩]], [[⟨0, 1, 0, 1, 5, 15⟩]]] = 4 ∧
    mergerRowCapacity [[[⟨1, 0, 0, 1, 0, 10⟩]], [[⟨0, 1, 0, 1, 5, 15⟩]]] = 2 ∧
    claimRowCapacity 1 [[[⟨1, 0, 0, 1, 0, 10⟩]], [[⟨0, 1, 0, 1, 5, 15⟩]]] ≠
      mergerRowCapacity [[[⟨1, 0, 0, 1, 0, 10⟩]], [[⟨0, 1, 0, 1, 5, 15⟩]]] := by
  refine ⟨?_, by rfl, ?_⟩
  · norm_num [claimRowCapacity, hasVolumeOverlap, gatherPixel, gatherStaging,
      rowTotalSamples, isVolume, List.range_succ]
  · intro h
    rw [show mergerRowCapacity [[[⟨1, 0, 0, 1, 0, 10⟩]], [[⟨0, 1, 0, 1, 5, 15⟩]]] = 2
        from rfl] at h
    norm_num [claimRowCapacity, hasVolumeOverlap, gatherPixel, gatherStaging,
      rowTotalSamples, isVolume, List.range_succ] at h

theorem sum_map_add_nat {α : Type} (l : List α) (f g : α → ℕ) :
    (l.map (fun x => f x + g x)).sum = (l.map f).sum + (l.map g).sum := by
  induction l with
  | nil => simp
  | cons a t ih => simp [ih]; omega

theorem sum_getD_lengths (src : List (List RawSample)) :
    ((List.range src.length).map (fun x => (src.getD x []).length)).sum =
      (src.map List.length).sum := by
  induction src with
  | nil => simp
  | cons a t ih =>
      rw [List.length_cons, List.range_succ_eq_map]
      simp only [List.map_cons, List.map_map, List.sum_cons, Function.comp_def,
        List.getD_cons_zero, List.getD_cons_succ]
      rw [ih]

/-- C5 (amended): `merger_worker` allocates the merged slot for the sum
of all input rows' sample totals with multiplier 1 (no `S = 2` safety
factor), and because `mergePixelsDirect` only concatenates and sorts,
the total number of merged samples written across a width-`W` row
equals — and therefore never exceeds — that pre-allocated capacity. -/
theorem merger_capacity_bound (W : ℕ) :
    ∀ sources : List (List (List RawSample)),
      (∀ src ∈ sources, src.length = W) →
      mergedRowWrittenTotal W sources = mergerRowCapacity sources := by
  intro sources
  induction sources with
  | nil =>
      intro _
      simp [mergedRowWrittenTotal, mergerRowCapacity, mergePixelSamples,
        gatherStaging, gatherPixel]
  | cons a t ih =>
      intro hW
      have ha : a.length = W := hW a (by simp)
      have ht : ∀ src ∈ t, src.length = W := fun src hs => hW src (by simp [hs])
      have hlen : ∀ (srcs : List (List (List RawSample))) (x : ℕ),
          (mergePixelSamples (gatherPixel srcs x)).length =
            (srcs.map (fun src => (src.getD x []).length)).sum := by
        intro srcs x
        rw [mergePixelSamples, List.length_mergeSort]
        unfold gatherStaging gatherPixel
        rw [List.length_flatten, List.map_map]
        rfl
      unfold mergedRowWrittenTotal at ih ⊢
      simp only [hlen, List.map_cons, List.sum_cons] at ih ⊢
      rw [sum_map_add_nat (List.range W) (fun x => (a.getD x []).length)
        (fun x => (t.map (fun src => (src.getD x []).length)).sum)]
      rw [ih ht]
      have hsum : ((List.range W).map (fun x => (a.getD x []).length)).sum =
          rowTotalSamples a := by
        rw [← ha, sum_getD_lengths]
        rfl
      rw [hsum]
      unfold mergerRowCapacity
      simp [Nat.mul_one]

/-- Witness for C5's amended theorem at the counterexample row: both
sources have width 1, and the merged row writes exactly the allocated
`2` samples. -/
theorem merger_capacity_bound_witness :
    (∀ src ∈ ([[[⟨1, 0, 0, 1, 0, 10⟩]], [[⟨0, 1, 0, 1, 5, 15⟩]]] :
        List (List (List RawSample))), src.length = 1) ∧
    mergedRowWrittenTotal 1 [[[⟨1, 0, 0, 1, 0, 10⟩]], [[⟨0, 1, 0, 1, 5, 15⟩]]] =
      mergerRowCapacity [[[⟨1, 0, 0, 1, 0, 10⟩]], [[⟨0, 1, 0, 1, 5, 15⟩]]] :=
  ⟨by simp, merger_capacity_bound 1 [[[⟨1, 0, 0, 1, 0, 10⟩]], [[⟨0, 1, 0, 1, 5, 15⟩]]]
    (by simp)⟩

/-- C10: when every input file contributes zero samples at pixel `x`,
`mergePixelsDirect` only sets the merged row's per-pixel count at `x`
to `0` and returns immediately: the merged row's sample data block is
left untouched. -/
theorem mergePixelsDirect_all_empty (x : ℕ) (pixelLists : List (List RawSample))
    (row : MergedRow) (h : ∀ l ∈ pixelLists, l = []) :
    (mergePixelsDirect x pixelLists row).data = row.data ∧
    (mergePixelsDirect x pixelLists row).sampleCounts = row.sampleCounts.set x 0 := by
  have hempty : gatherStaging pixelLists = [] := by
    unfold gatherStaging
    exact List.flatten_eq_nil_iff.mpr h
  unfold mergePixelsDirect
  rw [hempty]
  simp

/-- Witness for C10: two empty per-file pixel lists leave the concrete
merged row's data `[3, 4]` unchanged and zero its count slot. -/
theorem mergePixelsDirect_all_empty_witness :
    (∀ l ∈ ([[], []] : List (List RawSample)), l = []) ∧
    (mergePixelsDirect 0 [[], []] ⟨[7], [3, 4]⟩).data = (⟨[7], [3, 4]⟩ : MergedRow).data ∧
    (mergePixelsDirect 0 [[], []] ⟨[7], [3, 4]⟩).sampleCounts =
      (⟨[7], [3, 4]⟩ : MergedRow).sampleCounts.set 0 0 :=
  ⟨by simp, mergePixelsDirect_all_empty 0 [[], []] ⟨[7], [3, 4]⟩ (by simp)⟩

/-! ## Theorems: the pipeline driver -/

theorem preloadOk_dims (first : DeepFileModel) :
    ∀ l : List DeepFileModel, preloadOk first l = true →
      ∀ f ∈ l, f.width = first.width ∧ f.height = first.height := by
  intro l
  induction l with
  | nil =>
      intro _ f hf
      exact absurd hf (List.not_mem_nil f)
  | cons a t ih =>
      intro h f hf
      rw [preloadOk] at h
      simp only [Bool.and_eq_true, dimsMatch, beq_iff_eq] at h
      obtain ⟨⟨_, hwa, hha⟩, hrest⟩ := h
      rcases List.mem_cons.mp hf with rfl | hft
      · exact ⟨hwa, hha⟩
      · exact ih hrest f hft

/-- C6: if any input's `(width, height)` differs from input 0's, the
preload loop of `processAllEXR` fails and the pipeline returns no
raster at all (the empty result, before any row is flattened). -/
theorem processAllEXR_dim_mismatch (inputs : List DeepFileModel) (i : ℕ)
    (hi : i < inputs.length) (h0 : 0 < inputs.length)
    (hne : (inputs.get ⟨i, hi⟩).width ≠ (inputs.get ⟨0, h0⟩).width ∨
           (inputs.get ⟨i, hi⟩).height ≠ (inputs.get ⟨0, h0⟩).height) :
    processAllEXR inputs = none := by
  cases inputs with
  | nil => simp at h0
  | cons f0 rest =>
      rw [processAllEXR]
      cases hpre : preloadOk f0 (f0 :: rest) with
      | false => simp
      | true =>
          exfalso
          have hmem : (f0 :: rest).get ⟨i, hi⟩ ∈ f0 :: rest := (f0 :: rest).get_mem i hi
          have hdims := preloadOk_dims f0 (f0 :: rest) hpre _ hmem
          have hg0 : (f0 :: rest).get ⟨0, h0⟩ = f0 := rfl
          rw [hg0] at hne
          rcases hne with hne | hne
          · exact hne hdims.1
          · exact hne hdims.2

/-- Witness for C6: a 16×16 and an 8×8 deep input make the pipeline
return `none`. -/
theorem processAllEXR_dim_mismatch_witness :
    (1 < ([⟨true, 16, 16, []⟩, ⟨true, 8, 8, []⟩] : List DeepFileModel).length) ∧
    (([⟨true, 16, 16, []⟩, ⟨true, 8, 8, []⟩] : List DeepFileModel).get
        ⟨1, by norm_num⟩).width ≠
      (([⟨true, 16, 16, []⟩, ⟨true, 8, 8, []⟩] : List DeepFileModel).get
        ⟨0, by norm_num⟩).width ∧
    processAllEXR [⟨true, 16, 16, []⟩, ⟨true, 8, 8, []⟩] = none :=
  ⟨by norm_num, by norm_num,
    processAllEXR_dim_mismatch [⟨true, 16, 16, []⟩, ⟨true, 8, 8, []⟩] 1
      (by norm_num) (by norm_num) (Or.inl (by norm_num))⟩

/-- C7 (failing input): with `--no-png-output`, two deep inputs of
mismatched dimensions make `processAllEXR` fail fatally (it returns no
raster), yet `main` never inspects that result and falls through to
`return 0` — not the exit code `1` the claim requires for a fatal
pipeline failure. -/
theorem main_exit_zero_on_pipeline_failure :
    mainExitCode false true true [⟨true, 16, 16, []⟩, ⟨true, 8, 8, []⟩] = 0 ∧
    processAllEXR [⟨true, 16, 16, []⟩, ⟨true, 8, 8, []⟩] = none := by
  constructor
  · rfl
  · rfl

end DeepComp
